import Mathlib

/-!
# Verification of the sshpf forwarding core (src/sshpf.go)

A shallow embedding of the pure/decidable core of `sshpf.go`:
the direct-tcpip payload decoder, the destination allow-list check,
the forwarding handler's control flow, the session handler's request
replies, the public-key callback, and the authorized-keys loader.

Go byte slices and strings are modelled as `List Nat` with every
element below 256 (Go's `byte` type guarantees this); Go `string`
values compared only for exact equality (channel request types) are
modelled as Lean `String`.  Network effects (the TCP dial) are
modelled by an oracle boolean `dialOk`, and the handler's observable
behaviour is collected in a trace recording the reply sent to the
channel-open and the list of dial attempts made.
-/

namespace Sshpf

/-- ASCII bytes of a string literal (used only to build concrete inputs). -/
def strBytes (s : String) : List Nat := s.data.map Char.toNat

/-- Fuel-driven decimal rendering helper for `itoa`. -/
def itoaAux : Nat → Nat → List Nat
  | 0, _ => []
  | fuel + 1, n => if n < 10 then [48 + n] else itoaAux fuel (n / 10) ++ [48 + n % 10]

/-- Decimal ASCII digits of `n`; models Go `strconv.Itoa` on the nonnegative
ports produced by the decoder (`fuel = n + 1` always suffices). -/
def itoa (n : Nat) : List Nat := itoaAux (n + 1) n

/-- Models Go's `net.JoinHostPort` (standard library): if the host contains a
colon byte it is wrapped in square brackets, otherwise the result is
`host ++ ":" ++ port`.  91, 93, 58 are the bytes of `[`, `]`, `:`. -/
def joinHostPort (host portStr : List Nat) : List Nat :=
  if host.contains 58 then 91 :: (host ++ [93, 58] ++ portStr)
  else host ++ [58] ++ portStr

/-- `decodeHostPortPayload` (src/sshpf.go:181-195).  The Go nil-slice check is
subsumed by the length-below-4 check (a nil slice has length 0).  The string
length is read from byte 3 only (`slen := int(b[3])`), the host is
`b[4 : 4+slen]`, and the port is assembled from the two bytes at offsets
`4+slen+2` and `4+slen+3` (`uint32(b[4+slen+2])<<8 + uint32(b[4+slen+2+1])`;
both operands are below 256 so the 32-bit addition cannot overflow). -/
def decodeHostPortPayload (b : List Nat) : Except String (List Nat × Nat) :=
  if b.length < 4 then .error "invalid payload size"
  else
    let slen := b.getD 3 0
    if b.length < 4 + slen + 2 + 2 then .error "invalid payload size"
    else
      .ok ((b.drop 4).take slen,
           (b.getD (4 + slen + 2) 0) * 256 + b.getD (4 + slen + 2 + 1) 0)

/-- The allow-list test inlined in `handleDial` (src/sshpf.go:104-111): with a
non-empty list the loop searches for an exact string match (`addr == dest`),
falling through to a "prohibited" rejection when none matches; with an empty
list control falls directly to the dial. -/
def destinationPermitted (allowedDestinations : List (List Nat)) (addr : List Nat) : Bool :=
  if allowedDestinations.length > 0 then allowedDestinations.contains addr else true

/-- The reply `handleDial`/`handleSession` give to a channel-open request. -/
inductive ChannelReply where
  /-- The handler returned without calling `Accept` or `Reject`. -/
  | unanswered : ChannelReply
  /-- `newChannel.Reject(ssh.Prohibited, ...)` (src/sshpf.go:110). -/
  | rejectedProhibited : ChannelReply
  /-- `newChannel.Reject(ssh.ConnectionFailed, ...)` (src/sshpf.go:115). -/
  | rejectedConnectionFailed : ChannelReply
  /-- `newChannel.Accept()`. -/
  | accepted : ChannelReply
deriving DecidableEq, Repr

/-- Observable behaviour of one `handleDial` invocation. -/
structure DialTrace where
  /-- Reply sent for the channel-open request. -/
  reply : ChannelReply
  /-- The candidate destination string formed (when decoding succeeded). -/
  addr : Option (List Nat)
  /-- Destination addresses passed to `net.DialTimeout`, in order. -/
  dials : List (List Nat)
deriving DecidableEq, Repr

/-- `handleDial` (src/sshpf.go:98-127) up to the relay loop: decode the
payload (returning the error, with no reply, on failure), form
`addr := net.JoinHostPort(host, strconv.Itoa(port))`, reject with
`ssh.Prohibited` when a non-empty allow-list lacks `addr` (no dial), else
dial once — `dialOk` is the oracle for the outcome of `net.DialTimeout` —
rejecting with `ssh.ConnectionFailed` on failure and accepting on success. -/
def handleDial (allowedDestinations : List (List Nat)) (payload : List Nat)
    (dialOk : Bool) : DialTrace :=
  match decodeHostPortPayload payload with
  | .error _ => ⟨.unanswered, none, []⟩
  | .ok (host, port) =>
    let addr := joinHostPort host (itoa port)
    if destinationPermitted allowedDestinations addr then
      if dialOk then ⟨.accepted, some addr, [addr]⟩
      else ⟨.rejectedConnectionFailed, some addr, [addr]⟩
    else ⟨.rejectedProhibited, some addr, []⟩

/-- Observable behaviour of one `handleSession` invocation. -/
structure SessionTrace where
  /-- Replies sent to the channel requests, in order (`req.Reply(b, nil)`). -/
  replies : List Bool
  /-- Bytes the handler wrote back to the client. -/
  sentToClient : List Nat
  /-- Bytes the handler read (and discarded) from the channel. -/
  consumed : List Nat
deriving DecidableEq, Repr

/-- `handleSession` (src/sshpf.go:129-142): accept the channel, answer each
request with `req.Reply(req.Type == "shell", nil)` (no shell is spawned),
and drain all channel data into `ioutil.Discard`, writing nothing back. -/
def handleSession (reqTypes : List String) (dataIn : List Nat) : SessionTrace :=
  { replies := reqTypes.map (fun t => t == "shell")
    sentToClient := []
    consumed := dataIn }

/-- The closure returned by `authChecker` (src/sshpf.go:170-178): given the
marshaled bytes of the presented key, scan the loaded entries with
`bytes.Equal`; a match yields `(nil, nil)` ("accept, no special
permissions", modelled `.ok ()`), otherwise `errors.New("no keys matched")`. -/
def publicKeyCallback (pkeys : List (List Nat)) (keyBytes : List Nat) :
    Except String Unit :=
  if pkeys.any (fun k => keyBytes == k) then .ok () else .error "no keys matched"

/-- The scan loop of `authChecker` (src/sshpf.go:158-166): each line is given
to `ssh.ParseAuthorizedKey` and the parsed key's `Marshal()` bytes are
appended; the first line that fails to parse aborts with that error.  The
external parser (x/crypto, composed with `Marshal`) is the parameter
`parse`: `none` models a parse error for that line. -/
def parseAuthKeyLines (parse : List Nat → Option (List Nat)) :
    List (List Nat) → Except String (List (List Nat))
  | [] => .ok []
  | line :: rest =>
    match parse line with
    | none => .error "key parse error"
    | some pk =>
      match parseAuthKeyLines parse rest with
      | .error e => .error e
      | .ok pks => .ok (pk :: pks)

/-- `authChecker`'s construction phase (src/sshpf.go:152-169): opening the
file may fail (`file = none` models an unreadable file), otherwise every
line is parsed — no line is skipped. -/
def authCheckerLoad (parse : List Nat → Option (List Nat))
    (file : Option (List (List Nat))) : Except String (List (List Nat)) :=
  match file with
  | none => .error "open failed"
  | some lines => parseAuthKeyLines parse lines

/-! ## Helper lemmas -/

theorem contains_iff_mem (l : List (List Nat)) (a : List Nat) :
    l.contains a = true ↔ a ∈ l := by
  simp [List.contains_iff_exists_mem_beq]

theorem handleDial_ok (allowed : List (List Nat)) (payload : List Nat)
    (dialOk : Bool) (host : List Nat) (port : Nat)
    (hdec : decodeHostPortPayload payload = .ok (host, port)) :
    handleDial allowed payload dialOk =
      if destinationPermitted allowed (joinHostPort host (itoa port)) then
        if dialOk then
          ⟨.accepted, some (joinHostPort host (itoa port)),
            [joinHostPort host (itoa port)]⟩
        else
          ⟨.rejectedConnectionFailed, some (joinHostPort host (itoa port)),
            [joinHostPort host (itoa port)]⟩
      else ⟨.rejectedProhibited, some (joinHostPort host (itoa port)), []⟩ := by
  unfold handleDial
  rw [hdec]

theorem getD_append_add_length (l₁ l₂ : List Nat) (k : Nat) :
    (l₁ ++ l₂).getD (l₁.length + k) 0 = l₂.getD k 0 := by
  rw [List.getD_append_right _ _ _ _ (Nat.le_add_right _ _)]
  congr 1
  omega

/-! ## Claims -/

/-- C2: destination authorization permits every candidate when the allow-list
is empty; with a non-empty allow-list it permits `d` exactly when `d` is
byte-for-byte equal to some entry (no normalization of any kind). -/
theorem destinationPermitted_spec (allowed : List (List Nat)) (d : List Nat) :
    (allowed = [] → destinationPermitted allowed d = true)
    ∧ (allowed ≠ [] →
        (destinationPermitted allowed d = true ↔ ∃ e ∈ allowed, d = e)) := by
  constructor
  · intro h; subst h; rfl
  · intro h
    unfold destinationPermitted
    rw [if_pos (by simpa [List.length_pos] using h)]
    rw [contains_iff_mem]
    constructor
    · intro hm; exact ⟨d, hm, rfl⟩
    · rintro ⟨e, he, rfl⟩; exact he

/-- Witness for C2 at a concrete non-empty allow-list. -/
theorem destinationPermitted_spec_witness :
    destinationPermitted [strBytes "10.0.0.5:443"] (strBytes "10.0.0.5:443") = true :=
  ((destinationPermitted_spec [strBytes "10.0.0.5:443"] (strBytes "10.0.0.5:443")).2
      (by decide)).mpr ⟨strBytes "10.0.0.5:443", by decide, rfl⟩

/-- C5: the public-key callback accepts (with no special permissions) exactly
when the presented key's marshaled bytes equal some loaded entry; a key whose
bytes differ from every entry is rejected with the authentication error. -/
theorem publicKeyCallback_spec (pkeys : List (List Nat)) (keyBytes : List Nat) :
    (publicKeyCallback pkeys keyBytes = .ok () ↔ ∃ e ∈ pkeys, keyBytes = e)
    ∧ ((∀ e ∈ pkeys, keyBytes ≠ e) →
        publicKeyCallback pkeys keyBytes = .error "no keys matched") := by
  have hany : (pkeys.any fun k => keyBytes == k) = true ↔ ∃ e ∈ pkeys, keyBytes = e := by
    simp [List.any_eq_true]
  constructor
  · constructor
    · intro hok
      by_cases hc : (pkeys.any fun k => keyBytes == k) = true
      · exact hany.mp hc
      · unfold publicKeyCallback at hok; rw [if_neg hc] at hok; cases hok
    · intro hex
      unfold publicKeyCallback
      rw [if_pos (hany.mpr hex)]
  · intro hall
    unfold publicKeyCallback
    rw [if_neg]
    intro hc
    obtain ⟨e, he, heq⟩ := hany.mp hc
    exact hall e he heq

/-- Witness for C5: a key matching no entry is rejected. -/
theorem publicKeyCallback_spec_witness :
    publicKeyCallback [[1, 2, 3]] [1, 2, 4] = .error "no keys matched" :=
  (publicKeyCallback_spec [[1, 2, 3]] [1, 2, 4]).2 (by decide)

/-- C6: the session handler replies success to a request exactly when its type
is the string "shell" (and failure otherwise), writes no byte back to the
client, and discards every byte of channel data it reads. -/
theorem handleSession_spec (reqTypes : List String) (dataIn : List Nat) (i : Nat)
    (hi : i < reqTypes.length) :
    ((handleSession reqTypes dataIn).replies.getD i false = true ↔
      reqTypes.getD i "" = "shell")
    ∧ (handleSession reqTypes dataIn).sentToClient = []
    ∧ (handleSession reqTypes dataIn).consumed = dataIn := by
  refine ⟨?_, rfl, rfl⟩
  have hi' : i < (reqTypes.map (fun t => t == "shell")).length := by
    simpa using hi
  rw [handleSession]
  rw [List.getD_eq_getElem _ _ hi', List.getD_eq_getElem _ _ hi]
  simp

/-- Witness for C6: a "pty-req" request is answered with failure, a "shell"
request with success, and nothing is written back. -/
theorem handleSession_spec_witness :
    ((handleSession ["pty-req", "shell"] [7, 8]).replies.getD 1 false = true ↔
      (["pty-req", "shell"] : List String).getD 1 "" = "shell")
    ∧ (handleSession ["pty-req", "shell"] [7, 8]).sentToClient = []
    ∧ (handleSession ["pty-req", "shell"] [7, 8]).consumed = [7, 8] :=
  handleSession_spec ["pty-req", "shell"] [7, 8] 1 (by decide)

/-- C1: when the decoded candidate destination is absent from a non-empty
allow-list, the forwarding handler rejects the channel open with the
"prohibited" reason and no dial is ever attempted for that channel. -/
theorem handleDial_denied (allowed : List (List Nat)) (payload : List Nat)
    (dialOk : Bool) (host : List Nat) (port : Nat)
    (hdec : decodeHostPortPayload payload = .ok (host, port))
    (hne : allowed ≠ [])
    (habs : joinHostPort host (itoa port) ∉ allowed) :
    (handleDial allowed payload dialOk).reply = .rejectedProhibited
    ∧ (handleDial allowed payload dialOk).dials = [] := by
  have hperm : destinationPermitted allowed (joinHostPort host (itoa port)) = false := by
    unfold destinationPermitted
    rw [if_pos (by simpa [List.length_pos] using hne)]
    exact (Bool.eq_false_iff.mpr (fun hc => habs ((contains_iff_mem _ _).mp hc)))
  unfold handleDial
  rw [hdec]
  simp [hperm]

/-- Witness for C1: allow-list `["10.0.0.5:443"]`, request for `10.0.0.5:80`. -/
theorem handleDial_denied_witness :
    (handleDial [strBytes "10.0.0.5:443"]
        ([0, 0, 0, 8] ++ strBytes "10.0.0.5" ++ [0, 0, 0, 80]) true).reply =
      ChannelReply.rejectedProhibited
    ∧ (handleDial [strBytes "10.0.0.5:443"]
        ([0, 0, 0, 8] ++ strBytes "10.0.0.5" ++ [0, 0, 0, 80]) true).dials = [] :=
  handleDial_denied [strBytes "10.0.0.5:443"]
    ([0, 0, 0, 8] ++ strBytes "10.0.0.5" ++ [0, 0, 0, 80]) true
    (strBytes "10.0.0.5") 80 (by rfl) (by decide) (by decide)

/-- C8: when the candidate destination is authorized but the TCP dial fails,
the forwarding handler rejects the channel open with the "connection failed"
reason, and exactly one dial was attempted (no retry). -/
theorem handleDial_dialFailure (allowed : List (List Nat)) (payload : List Nat)
    (host : List Nat) (port : Nat)
    (hdec : decodeHostPortPayload payload = .ok (host, port))
    (hperm : destinationPermitted allowed (joinHostPort host (itoa port)) = true) :
    (handleDial allowed payload false).reply = .rejectedConnectionFailed
    ∧ (handleDial allowed payload false).dials = [joinHostPort host (itoa port)] := by
  unfold handleDial
  rw [hdec]
  simp [hperm]

/-- Witness for C8: empty allow-list, valid payload, failing dial. -/
theorem handleDial_dialFailure_witness :
    (handleDial [] ([0, 0, 0, 8] ++ strBytes "10.0.0.5" ++ [0, 0, 0, 80]) false).reply =
      ChannelReply.rejectedConnectionFailed
    ∧ (handleDial [] ([0, 0, 0, 8] ++ strBytes "10.0.0.5" ++ [0, 0, 0, 80]) false).dials =
      [joinHostPort (strBytes "10.0.0.5") (itoa 80)] :=
  handleDial_dialFailure [] ([0, 0, 0, 8] ++ strBytes "10.0.0.5" ++ [0, 0, 0, 80])
    (strBytes "10.0.0.5") 80 (by rfl) (by decide)

/-- C4 counterexample: on an undecodable payload (here the empty payload) the
forwarding handler leaves the channel open unanswered — the client receives no
rejection at all, contradicting the claim that a malformed-payload rejection
is sent.  `unanswered` is distinct from every rejection and from acceptance. -/
theorem handleDial_malformed_cex :
    decodeHostPortPayload [] = .error "invalid payload size"
    ∧ (handleDial [] [] true).reply = ChannelReply.unanswered
    ∧ (handleDial [] [] true).reply ≠ ChannelReply.rejectedProhibited
    ∧ (handleDial [] [] true).reply ≠ ChannelReply.rejectedConnectionFailed
    ∧ (handleDial [] [] true).reply ≠ ChannelReply.accepted :=
  ⟨rfl, rfl, by decide, by decide, by decide⟩

/-- C4 (amended): when the payload fails to decode, the forwarding handler
returns the decode error without answering the channel open — it sends
neither a rejection nor an acceptance, and attempts no dial. -/
theorem handleDial_malformed_unanswered (allowed : List (List Nat))
    (payload : List Nat) (dialOk : Bool) (e : String)
    (hdec : decodeHostPortPayload payload = .error e) :
    handleDial allowed payload dialOk = ⟨.unanswered, none, []⟩ := by
  unfold handleDial
  rw [hdec]

/-- Witness for C4 (amended) at the empty payload. -/
theorem handleDial_malformed_unanswered_witness :
    handleDial [] [] true = ⟨ChannelReply.unanswered, none, []⟩ :=
  handleDial_malformed_unanswered [] [] true "invalid payload size" rfl

/-- C7 counterexample: for the host `"::1"` (which contains colon bytes) and
port 80, the candidate destination is `"[::1]:80"` — Go's `net.JoinHostPort`
bracket-wraps such hosts — not the plain concatenation `"::1" ++ ":" ++ "80"`
the claim asserts for every host. -/
theorem handleDial_addr_cex :
    decodeHostPortPayload [0, 0, 0, 3, 58, 58, 49, 0, 0, 0, 80] =
      .ok ([58, 58, 49], 80)
    ∧ (handleDial [] [0, 0, 0, 3, 58, 58, 49, 0, 0, 0, 80] true).addr =
      some (strBytes "[::1]:80")
    ∧ (handleDial [] [0, 0, 0, 3, 58, 58, 49, 0, 0, 0, 80] true).addr ≠
      some ([58, 58, 49] ++ [58] ++ itoa 80) :=
  ⟨rfl, by decide, by decide⟩

/-- C7 (amended): the candidate destination checked against the allow-list and
dialed is `host ++ ":" ++ decimal(port)` when the host contains no colon
byte, and `"[" ++ host ++ "]:" ++ decimal(port)` when it does (the behaviour
of Go's `net.JoinHostPort`); every dialed address equals this candidate. -/
theorem handleDial_addr_spec (allowed : List (List Nat)) (payload : List Nat)
    (dialOk : Bool) (host : List Nat) (port : Nat)
    (hdec : decodeHostPortPayload payload = .ok (host, port)) :
    (handleDial allowed payload dialOk).addr =
      some (if host.contains 58
            then 91 :: (host ++ [93, 58] ++ itoa port)
            else host ++ [58] ++ itoa port)
    ∧ ∀ a ∈ (handleDial allowed payload dialOk).dials,
        a = (if host.contains 58
             then 91 :: (host ++ [93, 58] ++ itoa port)
             else host ++ [58] ++ itoa port) := by
  have hJ : (if host.contains 58
             then 91 :: (host ++ [93, 58] ++ itoa port)
             else host ++ [58] ++ itoa port) = joinHostPort host (itoa port) := rfl
  rw [hJ, handleDial_ok allowed payload dialOk host port hdec]
  split
  · split
    · exact ⟨rfl, by simp⟩
    · exact ⟨rfl, by simp⟩
  · exact ⟨rfl, by simp⟩

/-- Witness for C7 (amended) at host `"::1"`, port 80. -/
theorem handleDial_addr_spec_witness :
    (handleDial [] [0, 0, 0, 3, 58, 58, 49, 0, 0, 0, 80] true).addr =
      some (if ([58, 58, 49] : List Nat).contains 58
            then 91 :: ([58, 58, 49] ++ [93, 58] ++ itoa 80)
            else [58, 58, 49] ++ [58] ++ itoa 80)
    ∧ ∀ a ∈ (handleDial [] [0, 0, 0, 3, 58, 58, 49, 0, 0, 0, 80] true).dials,
        a = (if ([58, 58, 49] : List Nat).contains 58
             then 91 :: ([58, 58, 49] ++ [93, 58] ++ itoa 80)
             else [58, 58, 49] ++ [58] ++ itoa 80) :=
  handleDial_addr_spec [] [0, 0, 0, 3, 58, 58, 49, 0, 0, 0, 80] true
    [58, 58, 49] 80 (by rfl)

/-- C9: credential-store construction fails when the file is unreadable, fails
when any line (a blank line included, since the external per-line parser
rejects it) is not a well-formed authorized-key entry, and skips no line — a
successful load yields exactly one marshaled key per input line. -/
theorem authCheckerLoad_spec (parse : List Nat → Option (List Nat))
    (lines : List (List Nat)) :
    (authCheckerLoad parse none = .error "open failed")
    ∧ ((∃ l ∈ lines, parse l = none) →
        authCheckerLoad parse (some lines) = .error "key parse error")
    ∧ (∀ pks, authCheckerLoad parse (some lines) = .ok pks →
        pks.length = lines.length) := by
  refine ⟨rfl, ?_, ?_⟩
  · rintro ⟨l, hl, hpl⟩
    show parseAuthKeyLines parse lines = .error "key parse error"
    induction lines with
    | nil => cases hl
    | cons a rest ih =>
      rw [parseAuthKeyLines]
      cases hpa : parse a with
      | none => rfl
      | some pk =>
        rcases List.mem_cons.mp hl with h | h
        · subst h; rw [hpa] at hpl; cases hpl
        · rw [ih h]
  · intro pks hpks
    show pks.length = lines.length
    replace hpks : parseAuthKeyLines parse lines = .ok pks := hpks
    induction lines generalizing pks with
    | nil =>
      rw [parseAuthKeyLines] at hpks
      cases hpks
      rfl
    | cons a rest ih =>
      rw [parseAuthKeyLines] at hpks
      cases hpa : parse a with
      | none => rw [hpa] at hpks; cases hpks
      | some pk =>
        rw [hpa] at hpks
        cases hrest : parseAuthKeyLines parse rest with
        | error e => rw [hrest] at hpks; cases hpks
        | ok pks' =>
          rw [hrest] at hpks
          cases hpks
          simpa using ih pks' hrest

/-- Witness for C9: a file whose second line is blank aborts the load. -/
theorem authCheckerLoad_spec_witness :
    authCheckerLoad (fun l => if l.isEmpty then none else some l)
        (some [[97], []]) = .error "key parse error" :=
  (authCheckerLoad_spec (fun l => if l.isEmpty then none else some l)
      [[97], []]).2.1 ⟨[], by decide, rfl⟩

/-- C3: a well-formed direct-tcpip payload — 4-byte big-endian length prefix
(one significant byte, `L ≤ 255`), `L` host bytes, 4-byte big-endian port
(`p ≤ 65535`), then arbitrary originator fields — decodes to exactly
`(h, p)`; and every payload shorter than `4 + L + 4` bytes (`L` the declared
length byte, which covers absent and shorter-than-4-byte payloads) fails
with the malformed-payload error. -/
theorem decodeHostPortPayload_spec :
    (∀ (h : List Nat) (p : Nat) (rest : List Nat),
        h.length ≤ 255 → p ≤ 65535 →
        decodeHostPortPayload
            ([0, 0, 0, h.length] ++ h ++ [0, 0, p / 256, p % 256] ++ rest) =
          .ok (h, p))
    ∧ (∀ b : List Nat, b.length < 4 + b.getD 3 0 + 4 →
        decodeHostPortPayload b = .error "invalid payload size") := by
  constructor
  · intro h p rest hL hp
    have hassoc :
        [0, 0, 0, h.length] ++ h ++ [0, 0, p / 256, p % 256] ++ rest
          = [0, 0, 0, h.length] ++ (h ++ ([0, 0, p / 256, p % 256] ++ rest)) := by
      simp [List.append_assoc]
    rw [hassoc]
    have hslen :
        ([0, 0, 0, h.length]
          ++ (h ++ ([0, 0, p / 256, p % 256] ++ rest))).getD 3 0 = h.length := rfl
    have hlen :
        ([0, 0, 0, h.length] ++ (h ++ ([0, 0, p / 256, p % 256] ++ rest))).length
          = 4 + h.length + 4 + rest.length := by
      simp only [List.length_append, List.length_cons, List.length_nil] <;> omega
    have hdrop :
        ([0, 0, 0, h.length] ++ (h ++ ([0, 0, p / 256, p % 256] ++ rest))).drop 4
          = h ++ ([0, 0, p / 256, p % 256] ++ rest) := rfl
    have hhi :
        ([0, 0, 0, h.length] ++ (h ++ ([0, 0, p / 256, p % 256] ++ rest))).getD
            (4 + h.length + 2) 0 = p / 256 := by
      have e1 : 4 + h.length + 2
          = ([0, 0, 0, h.length] : List Nat).length + (h.length + 2) := by
        simp only [List.length_cons, List.length_nil] <;> omega
      rw [e1, getD_append_add_length, getD_append_add_length]
      rfl
    have hlo :
        ([0, 0, 0, h.length] ++ (h ++ ([0, 0, p / 256, p % 256] ++ rest))).getD
            (4 + h.length + 2 + 1) 0 = p % 256 := by
      have e1 : 4 + h.length + 2 + 1
          = ([0, 0, 0, h.length] : List Nat).length + (h.length + 3) := by
        simp only [List.length_cons, List.length_nil] <;> omega
      rw [e1, getD_append_add_length, getD_append_add_length]
      rfl
    simp only [decodeHostPortPayload, hslen, hlen, hdrop, hhi, hlo]
    rw [if_neg (by omega), if_neg (by omega), List.take_left]
    rw [Except.ok.injEq, Prod.mk.injEq]
    exact ⟨rfl, by omega⟩
  · intro b hb
    simp only [decodeHostPortPayload]
    by_cases h4 : b.length < 4
    · rw [if_pos h4]
    · rw [if_neg h4, if_pos (by omega)]

/-- Witness for C3: the payload for host `"hi"` and port 443 (with a dummy
originator field) decodes to `("hi", 443)`, and a truncated payload fails. -/
theorem decodeHostPortPayload_spec_witness :
    decodeHostPortPayload
        ([0, 0, 0, (strBytes "hi").length] ++ strBytes "hi"
          ++ [0, 0, 443 / 256, 443 % 256] ++ [0, 0, 0, 0, 0, 0, 0, 0]) =
      .ok (strBytes "hi", 443)
    ∧ decodeHostPortPayload [0, 0, 0, 5, 104, 105] =
      .error "invalid payload size" :=
  ⟨decodeHostPortPayload_spec.1 (strBytes "hi") 443 [0, 0, 0, 0, 0, 0, 0, 0]
      (by decide) (by decide),
   decodeHostPortPayload_spec.2 [0, 0, 0, 5, 104, 105] (by decide)⟩

/-- C10: the decoder is total — whenever it succeeds, its two length checks
put every index it reads in bounds (`4 + L + 4 ≤ length`, with the host slice
of exactly the declared length `L`), and the returned port, assembled from
exactly two bytes, is in `0..65535`. -/
theorem decodeHostPortPayload_total (b : List Nat) (hbytes : ∀ x ∈ b, x < 256)
    (host : List Nat) (port : Nat)
    (hok : decodeHostPortPayload b = .ok (host, port)) :
    port ≤ 65535
    ∧ 4 + b.getD 3 0 + 4 ≤ b.length
    ∧ host.length = b.getD 3 0 := by
  simp only [decodeHostPortPayload] at hok
  by_cases h4 : b.length < 4
  · rw [if_pos h4] at hok; cases hok
  · rw [if_neg h4] at hok
    by_cases h8 : b.length < 4 + b.getD 3 0 + 2 + 2
    · rw [if_pos h8] at hok; cases hok
    · rw [if_neg h8] at hok
      rw [Except.ok.injEq, Prod.mk.injEq] at hok
      obtain ⟨hh, hp⟩ := hok
      subst hh
      subst hp
      refine ⟨?_, by omega, ?_⟩
      · have hi1 : 4 + b.getD 3 0 + 2 < b.length := by omega
        have hi2 : 4 + b.getD 3 0 + 2 + 1 < b.length := by omega
        rw [List.getD_eq_getElem _ _ hi1, List.getD_eq_getElem _ _ hi2]
        have b1 := hbytes _ (List.getElem_mem hi1)
        have b2 := hbytes _ (List.getElem_mem hi2)
        omega
      · rw [List.length_take, List.length_drop]
        omega

/-- Witness for C10 at the payload for host `"hi"`, port 443. -/
theorem decodeHostPortPayload_total_witness :
    (443 : Nat) ≤ 65535
    ∧ 4 + ([0, 0, 0, 2, 104, 105, 0, 0, 1, 187, 9, 9] : List Nat).getD 3 0 + 4
        ≤ ([0, 0, 0, 2, 104, 105, 0, 0, 1, 187, 9, 9] : List Nat).length
    ∧ ([104, 105] : List Nat).length
        = ([0, 0, 0, 2, 104, 105, 0, 0, 1, 187, 9, 9] : List Nat).getD 3 0 :=
  decodeHostPortPayload_total [0, 0, 0, 2, 104, 105, 0, 0, 1, 187, 9, 9]
    (by decide) [104, 105] 443 rfl

end Sshpf
